import Mathlib

/-!
Shallow embedding of `internal/netconfig/netconfig.go` (repository rhtyd/router7).

The package applies a pre-computed network configuration to the live kernel
network stack.  All kernel-facing operations (netlink link/address/route
calls, sysctl file writes, raw-socket options) are modelled by an explicit
state `NetState` threaded through the appliers, together with an environment
`Env` that supplies the contents of the configuration files (`ReadFile` +
`json.Unmarshal` collapsed into one `Except` value per file) and a
failure oracle for each kernel operation (the kernel may refuse any
operation for environmental reasons; the oracle is keyed by the operation's
arguments).  Each applier returns `Option Err × NetState`, mirroring a Go
function that returns `error` while mutating the world; on failure the
partially mutated state is kept, exactly as in the program.

Diagnostic output (`log.Printf` and the best-effort `/dev/console` write,
whose error the source explicitly ignores) is modelled as a no-op.  Every
kernel mutation attempt is additionally recorded in `NetState.trace`, so
that statements about which operations run, and in which order, can be made.
-/

namespace Netconfig

/-- Errors.  Go errors are opaque values compared by identity here;
`wrapped ctx e` models `fmt.Errorf("ctx...: %v", e)`. -/
inductive Err where
  | ioError : String → Err
  | jsonError : String → Err
  | parseError : String → Err
  | linkNotFound : String → Err
  | eexist : Err
  | osError : String → Err
  | wrapped : String → Err → Err
deriving DecidableEq, Repr

deriving instance DecidableEq for Except

/-- A parsed CIDR address (`netlink.Addr`): IP bytes plus a one-bit count. -/
structure Addr where
  ip : List Nat
  plen : Nat
deriving DecidableEq, Repr

/-- A live network interface (`netlink.Link` attributes used by the code). -/
structure Link where
  index : Nat
  name : String
  hardwareAddr : String
  operUp : Bool
deriving DecidableEq, Repr

/-- A route (`netlink.Route` fields set by `applyDhcp4`).  `net.ParseIP` is
applied at the kernel boundary; IPs are kept as the strings the code passes. -/
structure Route where
  linkIndex : Nat
  dstIP : String
  dstPlen : Nat
  gw : Option String
  src : Option String
  scope : Nat
  protocol : Nat
deriving DecidableEq, Repr

/-- Kernel mutation attempts, recorded in order in `NetState.trace`. -/
inductive Op where
  | linkSetName : Nat → String → Op
  | linkSetUp : Nat → Op
  | addrReplace : Nat → Addr → Op
  | addrAdd : Nat → Addr → Op
  | routeAdd : Route → Op
  | sysctlWrite : String → String → Op
  | socketOpen : Op
  | setSockOpt : Nat → Op
deriving DecidableEq, Repr

/-- The kernel networking state mutated by the pipeline. -/
structure NetState where
  links : List Link
  addrs : List (Nat × Addr)
  routes : List Route
  sysctls : List (String × String)
  trace : List Op
deriving DecidableEq, Repr

/-- One entry of `interfaces.json` (`InterfaceDetails`). -/
structure InterfaceDetails where
  hardwareAddr : String
  name : String
  addr : String
deriving DecidableEq, Repr

/-- `InterfaceConfig`: the decoded `interfaces.json`. -/
structure InterfaceConfig where
  interfaces : List InterfaceDetails
deriving DecidableEq, Repr

/-- The decoded DHCPv4 lease (`dhcp4.Config` fields used by the code). -/
structure Dhcp4Config where
  clientIP : String
  subnetMask : String
  router : String
deriving DecidableEq, Repr

/-- `net.IPNet`: IP bytes and mask bytes. -/
structure IPNet where
  ip : List Nat
  mask : List Nat
deriving DecidableEq, Repr

/-- The decoded DHCPv6 lease (`dhcp6.Config` fields used by the code). -/
structure Dhcp6Config where
  prefixes : List IPNet
deriving DecidableEq, Repr

/-- The environment: configuration-file contents (read + unmarshal collapsed)
and a per-operation kernel failure oracle (`none` = the kernel accepts the
operation, `some e` = the kernel call returns error `e`).  `parseAddr`
models the external library function `netlink.ParseAddr` on a CIDR string;
`parsePfxAddr` models `netlink.ParseAddr(prefix.String())` on a `net.IPNet`. -/
structure Env where
  interfacesJson : Except Err InterfaceConfig
  dhcp4Lease : Except Err Dhcp4Config
  dhcp6Lease : Except Err Dhcp6Config
  parseAddr : String → Except Err Addr
  parsePfxAddr : IPNet → Except Err Addr
  linkListErr : Option Err
  linkSetNameErr : Nat → String → Option Err
  linkSetUpErr : Nat → Option Err
  addrReplaceErr : Nat → Addr → Option Err
  addrAddErr : Nat → Addr → Option Err
  newHandleErr : Option Err
  routeAddErr : Route → Option Err
  sysctlWriteErr : String → Option Err
  socketErr : Option Err
  setSockOptErr : Nat → Option Err

/-- Rename the link with kernel index `idx` (effect of `netlink.LinkSetName`). -/
def updName (links : List Link) (idx : Nat) (n : String) : List Link :=
  links.map fun l => if l.index = idx then { l with name := n } else l

/-- Bring the link with kernel index `idx` up (effect of `netlink.LinkSetUp`). -/
def updUp (links : List Link) (idx : Nat) : List Link :=
  links.map fun l => if l.index = idx then { l with operUp := true } else l

/-- `netlink.LinkSetName`: attempt recorded, oracle consulted, name updated. -/
def linkSetName (env : Env) (s : NetState) (idx : Nat) (n : String) :
    Option Err × NetState :=
  let s1 := { s with trace := s.trace ++ [Op.linkSetName idx n] }
  match env.linkSetNameErr idx n with
  | some e => (some e, s1)
  | none => (none, { s1 with links := updName s1.links idx n })

/-- `netlink.LinkSetUp`. -/
def linkSetUp (env : Env) (s : NetState) (idx : Nat) : Option Err × NetState :=
  let s1 := { s with trace := s.trace ++ [Op.linkSetUp idx] }
  match env.linkSetUpErr idx with
  | some e => (some e, s1)
  | none => (none, { s1 with links := updUp s1.links idx })

/-- `netlink.AddrReplace`: idempotent upsert — replacing an address that is
already present with an identical one leaves the address set unchanged. -/
def addrReplace (env : Env) (s : NetState) (idx : Nat) (a : Addr) :
    Option Err × NetState :=
  let s1 := { s with trace := s.trace ++ [Op.addrReplace idx a] }
  match env.addrReplaceErr idx a with
  | some e => (some e, s1)
  | none =>
    if (idx, a) ∈ s1.addrs then (none, s1)
    else (none, { s1 with addrs := s1.addrs ++ [(idx, a)] })

/-- `netlink.AddrAdd`: non-idempotent — a duplicate add fails (kernel
`EEXIST`). -/
def addrAdd (env : Env) (s : NetState) (idx : Nat) (a : Addr) :
    Option Err × NetState :=
  let s1 := { s with trace := s.trace ++ [Op.addrAdd idx a] }
  match env.addrAddErr idx a with
  | some e => (some e, s1)
  | none =>
    if (idx, a) ∈ s1.addrs then (some Err.eexist, s1)
    else (none, { s1 with addrs := s1.addrs ++ [(idx, a)] })

/-- `h.RouteAdd`: a duplicate route add fails (kernel `EEXIST`). -/
def routeAdd (env : Env) (s : NetState) (r : Route) : Option Err × NetState :=
  let s1 := { s with trace := s.trace ++ [Op.routeAdd r] }
  match env.routeAddErr r with
  | some e => (some e, s1)
  | none =>
    if r ∈ s1.routes then (some Err.eexist, s1)
    else (none, { s1 with routes := s1.routes ++ [r] })

/-- Update-or-append on an association list (effect of a sysctl write). -/
def setAssoc (l : List (String × String)) (k v : String) :
    List (String × String) :=
  if l.any fun p => p.1 == k then
    l.map fun p => if p.1 == k then (k, v) else p
  else l ++ [(k, v)]

/-- `ioutil.WriteFile` on a `/proc/sys` path. -/
def sysctlWrite (env : Env) (s : NetState) (path v : String) :
    Option Err × NetState :=
  let s1 := { s with trace := s.trace ++ [Op.sysctlWrite path v] }
  match env.sysctlWriteErr path with
  | some e => (some e, s1)
  | none => (none, { s1 with sysctls := setAssoc s1.sysctls path v })

/-- `if err := op(...); err != nil { return fmt.Errorf("ctx: %v", err) }`;
on success the continuation runs on the mutated state. -/
def step (ctx : String) (r : Option Err × NetState)
    (k : NetState → Option Err × NetState) : Option Err × NetState :=
  match r with
  | (some e, s) => (some (Err.wrapped ctx e), s)
  | (none, s) => k s

/-- Go `lower(c) = c | ('x' - 'X')` from `strconv`. -/
def lowerC (c : Char) : Char := Char.ofNat (c.toNat ||| 32)

/-- Digit classification of `strconv.ParseUint`'s conversion loop. -/
def digitVal (c : Char) : Option Nat :=
  if '0' ≤ c ∧ c ≤ '9' then some (c.toNat - 48)
  else if 'a' ≤ lowerC c ∧ lowerC c ≤ 'z' then some ((lowerC c).toNat - 97 + 10)
  else none

/-- The digit-accumulation loop of `strconv.ParseUint` (`base0` is true since
the call site passes base 0; `maxVal = 1<<bitSize - 1`).  Returns the value
and whether an underscore was seen. -/
def parseUintLoop (base maxVal : Nat) : List Char → Nat → Bool →
    Except Err (Nat × Bool)
  | [], n, u => .ok (n, u)
  | c :: cs, n, u =>
    if c = '_' then parseUintLoop base maxVal cs n true
    else
      match digitVal c with
      | none => .error (Err.parseError "ParseUint: invalid syntax")
      | some d =>
        if d ≥ base then .error (Err.parseError "ParseUint: invalid syntax")
        else if n * base + d > maxVal then
          .error (Err.parseError "ParseUint: value out of range")
        else parseUintLoop base maxVal cs (n * base + d) u

/-- `strconv`'s `underscoreOK` helper: underscores must separate digits. -/
def underscoreOKAux (hex : Bool) : List Char → Char → Bool
  | [], saw => saw != '_'
  | c :: cs, saw =>
    if ('0' ≤ c ∧ c ≤ '9') ∨ (hex ∧ 'a' ≤ lowerC c ∧ lowerC c ≤ 'f') then
      underscoreOKAux hex cs '0'
    else if c = '_' then
      if saw ≠ '0' then false else underscoreOKAux hex cs '_'
    else if saw = '_' then false
    else underscoreOKAux hex cs '!'

/-- `strconv.underscoreOK` on the original string. -/
def underscoreOK (s : List Char) : Bool :=
  let s1 := match s with
    | c :: rest => if c = '-' ∨ c = '+' then rest else s
    | [] => s
  match s1 with
  | c0 :: c1 :: rest =>
    if c0 = '0' ∧ (lowerC c1 = 'b' ∨ lowerC c1 = 'o' ∨ lowerC c1 = 'x') then
      underscoreOKAux (lowerC c1 = 'x') rest '0'
    else underscoreOKAux false s1 '^'
  | _ => underscoreOKAux false s1 '^'

/-- Tail of `strconv.ParseUint` after the base prefix has been stripped:
run the digit loop, then reject ill-placed underscores. -/
def parseUintFinish (s0 : List Char) (base : Nat) (digits : List Char) :
    Except Err Nat :=
  match parseUintLoop base 255 digits 0 false with
  | .error e => .error e
  | .ok (n, under) =>
    if under ∧ ¬ underscoreOK s0 then
      .error (Err.parseError "ParseUint: invalid syntax")
    else .ok n

/-- `strconv.ParseUint(s, 0, 8)`: base 0 (prefix-determined), values up to
255.  Operates on the character list of the part. -/
def parseUint0Core (s0 : List Char) : Except Err Nat :=
  match s0 with
  | [] => .error (Err.parseError "ParseUint: invalid syntax")
  | _ =>
    let bs : Nat × List Char :=
      match s0 with
      | '0' :: c2 :: rest =>
        if lowerC c2 = 'b' ∧ rest ≠ [] then (2, rest)
        else if lowerC c2 = 'o' ∧ rest ≠ [] then (8, rest)
        else if lowerC c2 = 'x' ∧ rest ≠ [] then (16, rest)
        else (8, c2 :: rest)
      | _ => (10, s0)
    parseUintFinish s0 bs.1 bs.2

/-- `strings.Split(mask, ".")` for the single-character separator. -/
def splitDot : List Char → List (List Char)
  | [] => [[]]
  | c :: cs =>
    if c = '.' then [] :: splitDot cs
    else
      match splitDot cs with
      | p :: ps => (c :: p) :: ps
      | [] => [[c]]

/-- Inner loop of `net.simpleMaskLength` on one byte: count leading one bits
by shifting left while the top bit is set, then require the rest to be zero
(`none` models the `return -1` path).  The fuel of 9 bounds the at most 8
iterations of the Go `for` loop. -/
def byteOnesAux : Nat → Nat → Option Nat
  | 0, _ => none
  | f + 1, v =>
    if v &&& 128 ≠ 0 then (byteOnesAux f ((v <<< 1) % 256)).map (· + 1)
    else if v = 0 then some 0 else none

/-- Leading-ones count of a single non-0xff mask byte, `none` if the byte is
not of the form ones-then-zeros. -/
def byteOnes (v : Nat) : Option Nat := byteOnesAux 9 v

/-- All bytes zero. -/
def allZero (m : List Nat) : Bool := m.all (· == 0)

/-- `net.simpleMaskLength`: number of leading ones of a canonical mask,
`none` (Go: `-1`) if the mask is not ones-followed-by-zeros. -/
def simpleMaskLength : List Nat → Option Nat
  | [] => some 0
  | v :: rest =>
    if v = 255 then (simpleMaskLength rest).map (· + 8)
    else
      match byteOnes v with
      | none => none
      | some n => if allZero rest then some n else none

/-- `net.IPMask.Size`: `(ones, len(mask)*8)`, or `(0, 0)` when the mask is
not in canonical form. -/
def maskSize (m : List Nat) : Nat × Nat :=
  match simpleMaskLength m with
  | none => (0, 0)
  | some n => (n, 8 * m.length)

/-- The `for idx, part := range parts` loop of `subnetMaskSize`: parse each
part with `strconv.ParseUint(part, 0, 8)`, returning the first error. -/
def parseOctets : List (List Char) → Except Err (List Nat)
  | [] => .ok []
  | p :: rest =>
    match parseUint0Core p with
    | .error e => .error e
    | .ok n =>
      match parseOctets rest with
      | .error e => .error e
      | .ok ns => .ok (n :: ns)

/-- `subnetMaskSize` from netconfig.go: split on `.`, require exactly 4
parts, parse each with `strconv.ParseUint(part, 0, 8)`, then return
`net.IPv4Mask(n0,n1,n2,n3).Size()`'s ones count. -/
def subnetMaskSize (mask : String) : Except Err Nat :=
  let parts := splitDot mask.data
  if parts.length ≠ 4 then
    .error (Err.parseError "unexpected number of parts in subnet mask")
  else
    match parseOctets parts with
    | .error e => .error e
    | .ok numeric => .ok (maskSize numeric).1

/-- `net.CIDRMask(ones, bits)` byte construction. -/
def cidrMaskAux : Nat → Nat → List Nat
  | 0, _ => []
  | l + 1, n =>
    if n ≥ 8 then 255 :: cidrMaskAux l (n - 8)
    else (255 - (255 >>> n)) :: cidrMaskAux l 0

/-- `net.CIDRMask`: `nil` (here `[]`) unless `bits` is 32 or 128 and
`ones ≤ bits`. -/
def cidrMask (ones bits : Nat) : List Nat :=
  if bits = 32 ∨ bits = 128 then
    if ones ≤ bits then cidrMaskAux (bits / 8) ones else []
  else []

/-- `prefix.IP[len(prefix.IP)-1] = 1` (the source indexes the last byte; it
would panic on an empty IP, which cannot arise from a decoded lease). -/
def setLastByte : List Nat → List Nat
  | [] => []
  | [_] => [1]
  | b :: rest => b :: setLastByte rest

/-- The per-prefix derivation in `applyDhcp6`'s loop body: set the final
address byte to 1, then widen the mask to /64 when `ones < 64`
(`prefix.Mask = net.CIDRMask(64, bits)` with `bits` from `Size()`). -/
def derivePfx (p : IPNet) : IPNet :=
  let ip := setLastByte p.ip
  let ones := (maskSize p.mask).1
  let bits := (maskSize p.mask).2
  let mask := if ones < 64 then cidrMask 64 bits else p.mask
  { ip := ip, mask := mask }

/-- Go map `byHardwareAddr` built by insertion: last entry with a given
hardware address wins. -/
def lookupHW (ds : List InterfaceDetails) (hw : String) :
    Option InterfaceDetails :=
  ds.reverse.find? fun d => d.hardwareAddr == hw

/-- `netlink.LinkByName`. -/
def findLink (links : List Link) (n : String) : Option Link :=
  links.find? fun l => l.name == n

/-- Address part of `applyInterfaces`'s loop body: when a desired address is
present, parse it and `AddrReplace` it. -/
def applyAddrPart (env : Env) (d : InterfaceDetails) (l : Link)
    (s : NetState) : Option Err × NetState :=
  if d.addr ≠ "" then
    match env.parseAddr d.addr with
    | .error e => (some (Err.wrapped "ParseAddr" e), s)
    | .ok a => step "AddrReplace" (addrReplace env s l.index a)
        fun s3 => (none, s3)
  else (none, s)

/-- Up part of the loop body: bring the interface up when the snapshot says
it is not already up, then continue with the address part. -/
def applyUpPart (env : Env) (d : InterfaceDetails) (l : Link)
    (s : NetState) : Option Err × NetState :=
  step "LinkSetUp"
    (if l.operUp then (none, s) else linkSetUp env s l.index)
    (applyAddrPart env d l)

/-- Loop body of `applyInterfaces` for one live interface: skip when the
hardware address matches no configuration entry; otherwise rename when the
name differs, bring up when not already up, then `AddrReplace` when a
desired address is present. -/
def applyOneInterface (env : Env) (ds : List InterfaceDetails) (s : NetState)
    (l : Link) : Option Err × NetState :=
  match lookupHW ds l.hardwareAddr with
  | none => (none, s)
  | some d =>
    step "LinkSetName"
      (if l.name ≠ d.name then linkSetName env s l.index d.name
       else (none, s))
      (applyUpPart env d l)

/-- The `for _, l := range links` loop of `applyInterfaces`: the first error
aborts the remaining interfaces. -/
def applyLoop (env : Env) (ds : List InterfaceDetails) :
    NetState → List Link → Option Err × NetState
  | s, [] => (none, s)
  | s, l :: rest =>
    match applyOneInterface env ds s l with
    | (some e, s1) => (some e, s1)
    | (none, s1) => applyLoop env ds s1 rest

/-- `applyInterfaces`: read and decode `interfaces.json`, list the live
links — the error of `netlink.LinkList` is assigned but never checked, so a
failing enumeration yields an empty list — and run the loop. -/
def applyInterfaces (env : Env) (s : NetState) : Option Err × NetState :=
  match env.interfacesJson with
  | .error e => (some e, s)
  | .ok cfg =>
    let links := match env.linkListErr with
      | some _ => []
      | none => s.links
    applyLoop env cfg.interfaces s links

/-- The host route to the DHCP router installed by `applyDhcp4`
(`Dst = router/32`, `Scope = SCOPE_LINK`, `Protocol = RTPROT_DHCP`). -/
def hostRoute (link : Link) (got : Dhcp4Config) : Route :=
  { linkIndex := link.index, dstIP := got.router, dstPlen := 32,
    gw := none, src := some got.clientIP, scope := 253, protocol := 16 }

/-- The default route installed by `applyDhcp4` (`Dst = 0.0.0.0/0`,
`Gw = router`, `Protocol = RTPROT_DHCP`). -/
def defaultRoute (link : Link) (got : Dhcp4Config) : Route :=
  { linkIndex := link.index, dstIP := "0.0.0.0", dstPlen := 0,
    gw := some got.router, src := some got.clientIP, scope := 0,
    protocol := 16 }

/-- `applyDhcp4`: read the lease, find the link, decode the mask, parse
`clientIP/size`, open a handle, then `AddrAdd`, host-route add, default-route
add; the first failure is returned and earlier effects stay in place. -/
def applyDhcp4 (env : Env) (iface : String) (s : NetState) :
    Option Err × NetState :=
  match env.dhcp4Lease with
  | .error e => (some e, s)
  | .ok got =>
    match findLink s.links iface with
    | none => (some (Err.linkNotFound iface), s)
    | some link =>
      match subnetMaskSize got.subnetMask with
      | .error e => (some e, s)
      | .ok subnetSize =>
        match env.parseAddr (got.clientIP ++ "/" ++ toString subnetSize) with
        | .error e => (some e, s)
        | .ok addr =>
          match env.newHandleErr with
          | some e => (some (Err.wrapped "netlink.NewHandle" e), s)
          | none =>
            step "AddrAdd" (addrAdd env s link.index addr) fun s1 =>
            step "RouteAdd(router)" (routeAdd env s1 (hostRoute link got))
              fun s2 =>
            step "RouteAdd(default)" (routeAdd env s2 (defaultRoute link got))
              fun s3 => (none, s3)

/-- The `for _, prefix := range got.Prefixes` loop of `applyDhcp6`: derive
the address for each delegated prefix, parse it, `AddrAdd` it; the first
failure aborts the remaining prefixes. -/
def dhcp6Loop (env : Env) (link : Link) :
    NetState → List IPNet → Option Err × NetState
  | s, [] => (none, s)
  | s, p :: rest =>
    match env.parsePfxAddr (derivePfx p) with
    | .error e => (some e, s)
    | .ok a =>
      match addrAdd env s link.index a with
      | (some e, s1) => (some (Err.wrapped "AddrAdd" e), s1)
      | (none, s1) => dhcp6Loop env link s1 rest

/-- `applyDhcp6`: read the lease, find the link, process each prefix. -/
def applyDhcp6 (env : Env) (iface : String) (s : NetState) :
    Option Err × NetState :=
  match env.dhcp6Lease with
  | .error e => (some e, s)
  | .ok got =>
    match findLink s.links iface with
    | none => (some (Err.linkNotFound iface), s)
    | some link => dhcp6Loop env link s got.prefixes

/-- `applySysctl`: three fixed writes, stopping at the first failure. -/
def applySysctl (env : Env) (s : NetState) : Option Err × NetState :=
  step "sysctl(net.ipv4.ip_forward=1)"
    (sysctlWrite env s "/proc/sys/net/ipv4/ip_forward" "1") fun s1 =>
  step "sysctl(net.ipv6.conf.all.forwarding=1)"
    (sysctlWrite env s1 "/proc/sys/net/ipv6/conf/all/forwarding" "1") fun s2 =>
  step "sysctl(net.ipv6.conf.uplink0.accept_ra=2)"
    (sysctlWrite env s2 "/proc/sys/net/ipv6/conf/uplink0/accept_ra" "2")
    fun s3 => (none, s3)

/-- `applyFirewall`: open a raw socket, then set socket options 0x40
(replace rule set) and 0x41 (reset counters); the two captured binary blobs
are opaque constants and are identified here by the option number.  Any
failure is returned immediately; the socket is never closed. -/
def applyFirewall (env : Env) (s : NetState) : Option Err × NetState :=
  match env.socketErr with
  | some e => (some e, s)
  | none =>
    let s1 := { s with trace := s.trace ++ [Op.socketOpen] }
    let s2 := { s1 with trace := s1.trace ++ [Op.setSockOpt 64] }
    match env.setSockOptErr 64 with
    | some e => (some e, s2)
    | none =>
      let s3 := { s2 with trace := s2.trace ++ [Op.setSockOpt 65] }
      match env.setSockOptErr 65 with
      | some e => (some e, s3)
      | none => (none, s3)

/-- Steps 2–6 of `Apply`: the best-effort lease/sysctl steps with the
`firstErr` capture, then the fatal firewall step. -/
def applyTail (env : Env) (iface : String) (s : NetState) :
    Option Err × NetState :=
  let r4 := applyDhcp4 env iface s
  let firstErr1 : Option Err := r4.1
  let r6 := applyDhcp6 env iface r4.2
  let firstErr2 : Option Err :=
    match r6.1, firstErr1 with
    | some e, none => some e
    | _, _ => firstErr1
  let rS := applySysctl env r6.2
  let firstErr3 : Option Err :=
    match rS.1, firstErr2 with
    | some e, none => some e
    | _, _ => firstErr2
  match applyFirewall env rS.2 with
  | (some e, s5) => (some e, s5)
  | (none, s5) => (firstErr3, s5)

/-- `Apply`: run `applyInterfaces`; on failure return its error immediately,
otherwise run the remaining steps. -/
def Apply (env : Env) (iface : String) (s : NetState) :
    Option Err × NetState :=
  match applyInterfaces env s with
  | (some e, s1) => (some e, s1)
  | (none, s1) => applyTail env iface s1

/-! ### Specification-side notions, for comparison with the embedded code -/

/-- The bits of one mask byte, most significant first (specification-side). -/
def byteBits (v : Nat) : List Bool :=
  (List.range 8).map fun k => v.testBit (7 - k)

/-- All bits of a mask, most significant first (specification-side). -/
def maskBits : List Nat → List Bool
  | [] => []
  | v :: rest => byteBits v ++ maskBits rest

/-- A bit list is contiguous when no zero bit precedes a one bit
(specification-side). -/
def bitsContiguous : List Bool → Bool
  | [] => true
  | true :: rest => bitsContiguous rest
  | false :: rest => rest.all fun b => b == false

/-- Count of leading one-bits (specification-side). -/
def leadingOnesB : List Bool → Nat
  | true :: rest => leadingOnesB rest + 1
  | _ => 0

/-- A mask is contiguous when its bit string is ones-then-zeros
(specification-side). -/
def maskContiguous (m : List Nat) : Bool := bitsContiguous (maskBits m)

/-- Count of leading one-bits of a mask (specification-side; what the claim
says a non-contiguous mask decodes to). -/
def maskLeadingOnes (m : List Nat) : Nat := leadingOnesB (maskBits m)

/-- The first error among the three best-effort steps
(specification-side formulation of the `firstErr` contract). -/
def firstErrOf (a b c : Option Err) : Option Err :=
  match a with
  | some e => some e
  | none =>
    match b with
    | some e => some e
    | none => c

/-- Whether an `Except` result is a success. -/
def isOkE {α : Type} (r : Except Err α) : Bool :=
  match r with
  | .ok _ => true
  | .error _ => false

/-! ### Shared concrete instances for witnesses -/

/-- A base environment: empty interface configuration, no lease files,
every kernel operation accepted. -/
def envBase : Env where
  interfacesJson := .ok ⟨[]⟩
  dhcp4Lease := .error (Err.ioError "dhcp4/wire/lease.json")
  dhcp6Lease := .error (Err.ioError "dhcp6/wire/lease.json")
  parseAddr := fun _ => .error (Err.parseError "ParseAddr")
  parsePfxAddr := fun _ => .error (Err.parseError "ParseAddr")
  linkListErr := none
  linkSetNameErr := fun _ _ => none
  linkSetUpErr := fun _ => none
  addrReplaceErr := fun _ _ => none
  addrAddErr := fun _ _ => none
  newHandleErr := none
  routeAddErr := fun _ => none
  sysctlWriteErr := fun _ => none
  socketErr := none
  setSockOptErr := fun _ => none

/-- The empty kernel state. -/
def st0 : NetState := ⟨[], [], [], [], []⟩

/-- Kernel state after a successful `applySysctl` from `st0`. -/
def stSys : NetState :=
  { links := [], addrs := [], routes := [],
    sysctls := [("/proc/sys/net/ipv4/ip_forward", "1"),
                ("/proc/sys/net/ipv6/conf/all/forwarding", "1"),
                ("/proc/sys/net/ipv6/conf/uplink0/accept_ra", "2")],
    trace := [Op.sysctlWrite "/proc/sys/net/ipv4/ip_forward" "1",
              Op.sysctlWrite "/proc/sys/net/ipv6/conf/all/forwarding" "1",
              Op.sysctlWrite "/proc/sys/net/ipv6/conf/uplink0/accept_ra" "2"] }

/-- `stSys` after a successful `applyFirewall`. -/
def stFw : NetState :=
  { stSys with
    trace := stSys.trace ++ [Op.socketOpen, Op.setSockOpt 64, Op.setSockOpt 65] }

/-! ### C1: orchestrator error precedence -/

/-- C1: whenever the Interface Applier step of `Apply` succeeds, a failing
Firewall Installer's error is returned (overriding any captured `firstErr`),
and otherwise `Apply` returns the first error among the DHCPv4, DHCPv6 and
Sysctl steps — `none` when all of them succeeded. -/
theorem C1_orchestrator_error_precedence
    (env : Env) (iface : String) (s s1 s2 s3 s4 : NetState)
    (e4 e6 eS : Option Err)
    (h1 : applyInterfaces env s = (none, s1))
    (h4 : applyDhcp4 env iface s1 = (e4, s2))
    (h6 : applyDhcp6 env iface s2 = (e6, s3))
    (hS : applySysctl env s3 = (eS, s4)) :
    (∀ f s5, applyFirewall env s4 = (some f, s5) →
        Apply env iface s = (some f, s5)) ∧
    (∀ s5, applyFirewall env s4 = (none, s5) →
        Apply env iface s = (firstErrOf e4 e6 eS, s5)) := by
  constructor
  · intro f s5 hF
    simp only [Apply, applyTail, h1, h4, h6, hS, hF]
  · intro s5 hF
    simp only [Apply, applyTail, h1, h4, h6, hS, hF]
    cases e4 <;> cases e6 <;> cases eS <;> rfl

/-- Witness for C1 at a concrete run: both lease steps fail, sysctl and
firewall succeed, and `Apply` returns the DHCPv4 error. -/
theorem C1_witness :
    Apply envBase "uplink0" st0 =
      (firstErrOf (some (Err.ioError "dhcp4/wire/lease.json"))
        (some (Err.ioError "dhcp6/wire/lease.json")) none, stFw) :=
  (C1_orchestrator_error_precedence envBase "uplink0" st0 st0 st0 st0 stSys
      (some (Err.ioError "dhcp4/wire/lease.json"))
      (some (Err.ioError "dhcp6/wire/lease.json")) none
      rfl rfl rfl (by decide)).2 stFw (by decide)

/-! ### C2: a failing Interface Applier aborts the pipeline -/

/-- C2: when the Interface Applier returns an error, `Apply` returns exactly
that error together with the Interface Applier's own final state — none of
the DHCPv4, DHCPv6, Sysctl or Firewall steps runs, so none of their side
effects occurs. -/
theorem C2_interface_error_fatal
    (env : Env) (iface : String) (s s1 : NetState) (e : Err)
    (h : applyInterfaces env s = (some e, s1)) :
    Apply env iface s = (some e, s1) := by
  simp only [Apply, h]

/-- Concrete environment whose `interfaces.json` cannot be read. -/
def envC2 : Env :=
  { envBase with interfacesJson := .error (Err.ioError "interfaces.json") }

/-- Witness for C2: a failing configuration read aborts `Apply` with the
same error and an untouched state. -/
theorem C2_witness :
    Apply envC2 "uplink0" st0 = (some (Err.ioError "interfaces.json"), st0) :=
  C2_interface_error_fatal envC2 "uplink0" st0 st0
    (Err.ioError "interfaces.json") rfl

/-! ### C10: a failing link enumeration is silently ignored -/

/-- C10: when reading `interfaces.json` succeeds but `netlink.LinkList`
fails, `applyInterfaces` ignores the enumeration error — it iterates an
empty link list, mutates nothing and returns success — and `Apply` proceeds
with the remaining steps exactly as if interface application had succeeded,
so the enumeration error never surfaces. -/
theorem C10_linklist_error_ignored
    (env : Env) (s : NetState) (cfg : InterfaceConfig) (e : Err)
    (hc : env.interfacesJson = .ok cfg) (he : env.linkListErr = some e) :
    applyInterfaces env s = (none, s) ∧
    ∀ iface, Apply env iface s = applyTail env iface s := by
  have hai : applyInterfaces env s = (none, s) := by
    simp only [applyInterfaces, hc, he, applyLoop]
  exact ⟨hai, fun iface => by simp only [Apply, hai]⟩

/-- Concrete environment whose link enumeration fails. -/
def envC10 : Env := { envBase with linkListErr := some (Err.osError "EPERM") }

/-- Witness for C10 at a concrete environment. -/
theorem C10_witness :
    applyInterfaces envC10 st0 = (none, st0) ∧
    ∀ iface, Apply envC10 iface st0 = applyTail envC10 iface st0 :=
  C10_linklist_error_ignored envC10 st0 ⟨[]⟩ (Err.osError "EPERM") rfl rfl

/-! ### Lemmas about the subnet mask decoder -/

/-- The digit loop never exceeds `maxVal`. -/
theorem parseUintLoop_le (base maxVal : Nat) :
    ∀ (cs : List Char) (n : Nat) (u : Bool) (m : Nat) (u' : Bool),
      parseUintLoop base maxVal cs n u = .ok (m, u') → n ≤ maxVal →
      m ≤ maxVal := by
  intro cs
  induction cs with
  | nil =>
    intro n u m u' h hn
    simp only [parseUintLoop, Except.ok.injEq, Prod.mk.injEq] at h
    omega
  | cons c cs ih =>
    intro n u m u' h hn
    unfold parseUintLoop at h
    by_cases hc : c = '_'
    · rw [if_pos hc] at h
      exact ih _ _ _ _ h hn
    · rw [if_neg hc] at h
      cases hd : digitVal c with
      | none => rw [hd] at h; exact absurd h (by simp)
      | some d =>
        rw [hd] at h
        dsimp only [] at h
        by_cases hb : d ≥ base
        · rw [if_pos hb] at h; exact absurd h (by simp)
        · rw [if_neg hb] at h
          by_cases hm : n * base + d > maxVal
          · rw [if_pos hm] at h; exact absurd h (by simp)
          · rw [if_neg hm] at h
            exact ih _ _ _ _ h (by omega)

/-- A successfully parsed part is at most 255. -/
theorem parseUintFinish_le (s0 : List Char) (base : Nat) (digits : List Char)
    (n : Nat) (h : parseUintFinish s0 base digits = .ok n) : n ≤ 255 := by
  unfold parseUintFinish at h
  cases hl : parseUintLoop base 255 digits 0 false with
  | error e => rw [hl] at h; exact absurd h (by simp)
  | ok r =>
    obtain ⟨rn, ru⟩ := r
    rw [hl] at h
    dsimp only [] at h
    split at h
    · exact absurd h (by simp)
    · have hrn : rn = n := by injection h
      subst hrn
      exact parseUintLoop_le base 255 digits 0 false rn ru hl (by omega)

/-- A successfully parsed octet is at most 255. -/
theorem parseUint0Core_le (p : List Char) (n : Nat)
    (h : parseUint0Core p = .ok n) : n ≤ 255 := by
  cases p with
  | nil => exact absurd h (by simp [parseUint0Core])
  | cons c cs => exact parseUintFinish_le _ _ _ n h

/-- The octet loop fails whenever some part fails to parse. -/
theorem parseOctets_error_of_mem :
    ∀ (l : List (List Char)) (p : List Char), p ∈ l →
      isOkE (parseUint0Core p) = false → ∃ e, parseOctets l = .error e := by
  intro l
  induction l with
  | nil => intro p hp; exact absurd hp (by simp)
  | cons q rest ih =>
    intro p hp hbad
    rcases List.mem_cons.mp hp with hq | hrest
    · subst hq
      cases hf : parseUint0Core p with
      | error e => exact ⟨e, by simp [parseOctets, hf]⟩
      | ok a => rw [hf] at hbad; exact absurd hbad (by simp [isOkE])
    · cases hf : parseUint0Core q with
      | error e => exact ⟨e, by simp [parseOctets, hf]⟩
      | ok a =>
        obtain ⟨e, he⟩ := ih p hrest hbad
        exact ⟨e, by simp [parseOctets, hf, he]⟩

/-- A non-four-part mask string is rejected. -/
theorem subnetMaskSize_error_parts (s : String)
    (h : (splitDot s.data).length ≠ 4) :
    subnetMaskSize s =
      .error (Err.parseError "unexpected number of parts in subnet mask") := by
  simp only [subnetMaskSize]
  rw [if_pos h]

/-- A mask string with a non-parsing part is rejected. -/
theorem subnetMaskSize_error_part (s : String) (p : List Char)
    (hp : p ∈ splitDot s.data) (hbad : isOkE (parseUint0Core p) = false) :
    ∃ e, subnetMaskSize s = .error e := by
  simp only [subnetMaskSize]
  by_cases hl : (splitDot s.data).length ≠ 4
  · exact ⟨Err.parseError "unexpected number of parts in subnet mask",
      subnetMaskSize_error_parts s hl⟩
  · obtain ⟨e, he⟩ := parseOctets_error_of_mem _ p hp hbad
    refine ⟨e, ?_⟩
    rw [if_neg hl, he]

/-! ### C4: subnet mask decoder contract -/

/-- C4: the Subnet Mask Decoder maps "255.255.255.0" to 24 and
"255.255.0.0" to 16, rejects any input whose dot-split does not have exactly
4 parts, and rejects any input one of whose parts does not parse as an
unsigned 8-bit integer; in particular "255.255.255" and "256.0.0.0" are
rejected with parse errors. -/
theorem C4_subnet_mask_decoder (s : String) (p : List Char) :
    subnetMaskSize "255.255.255.0" = .ok 24 ∧
    subnetMaskSize "255.255.0.0" = .ok 16 ∧
    ((splitDot s.data).length ≠ 4 → ∃ e, subnetMaskSize s = .error e) ∧
    (p ∈ splitDot s.data → isOkE (parseUint0Core p) = false →
      ∃ e, subnetMaskSize s = .error e) ∧
    subnetMaskSize "255.255.255" =
      .error (Err.parseError "unexpected number of parts in subnet mask") ∧
    subnetMaskSize "256.0.0.0" =
      .error (Err.parseError "ParseUint: value out of range") := by
  refine ⟨by decide, by decide, ?_, ?_, by decide, by decide⟩
  · intro h
    exact ⟨_, subnetMaskSize_error_parts s h⟩
  · intro hp hbad
    exact subnetMaskSize_error_part s p hp hbad

/-- Witness for C4 at its two rejected example inputs. -/
theorem C4_witness :
    (∃ e, subnetMaskSize "255.255.255" = .error e) ∧
    (∃ e, subnetMaskSize "256.0.0.0" = .error e) :=
  ⟨(C4_subnet_mask_decoder "255.255.255" []).2.2.1 (by decide),
   (C4_subnet_mask_decoder "256.0.0.0" "256".data).2.2.2.1 (by decide)
     (by decide)⟩

/-! ### C3: non-contiguous masks (corrected) -/

set_option maxRecDepth 4000 in
/-- If one byte's leading-ones count is defined, its bits are contiguous. -/
theorem byteOnes_isSome_contig :
    ∀ v < 256, ((byteOnes v).isSome = true →
      bitsContiguous (byteBits v) = true) := by decide

/-- All bits of an all-zero byte list are false. -/
theorem maskBits_allZero :
    ∀ (m : List Nat), allZero m = true → ∀ b ∈ maskBits m, b = false := by
  intro m
  induction m with
  | nil => simp [maskBits]
  | cons v rest ih =>
    intro h b hb
    have hz : v = 0 ∧ allZero rest = true := by
      simpa [allZero, List.all_cons] using h
    rcases List.mem_append.mp (by simpa [maskBits] using hb) with h1 | h2
    · rw [hz.1] at h1
      have h0 : byteBits 0 =
          [false, false, false, false, false, false, false, false] := by decide
      rw [h0] at h1
      simpa using h1
    · exact ih hz.2 b h2

/-- An all-false bit list is contiguous. -/
theorem bitsContiguous_allFalse (l : List Bool)
    (h : ∀ b ∈ l, b = false) : bitsContiguous l = true := by
  cases l with
  | nil => rfl
  | cons b rest =>
    have hb := h b (by simp)
    subst hb
    simp only [bitsContiguous, List.all_eq_true]
    intro x hx
    simp [h x (by simp [hx])]

/-- Appending an all-false tail preserves contiguity. -/
theorem bitsContiguous_append (a b : List Bool)
    (ha : bitsContiguous a = true) (hb : ∀ x ∈ b, x = false) :
    bitsContiguous (a ++ b) = true := by
  induction a with
  | nil => simpa using bitsContiguous_allFalse b hb
  | cons x rest ih =>
    cases x with
    | true =>
      simpa [bitsContiguous] using ih (by simpa [bitsContiguous] using ha)
    | false =>
      have hr : ∀ y ∈ rest, y = false := by
        intro y hy
        have ha' : rest.all (fun b => b == false) = true := by
          simpa [bitsContiguous] using ha
        have := List.all_eq_true.mp ha' y hy
        simpa using this
      simp only [List.cons_append, bitsContiguous, List.all_eq_true]
      intro y hy
      rcases List.mem_append.mp hy with h1 | h2
      · simp [hr y h1]
      · simp [hb y h2]

/-- If the code's `simpleMaskLength` returns a count, the mask is
contiguous in the specification's sense. -/
theorem simpleMaskLength_some_contig :
    ∀ (m : List Nat), (∀ v ∈ m, v < 256) →
      ∀ n, simpleMaskLength m = some n → maskContiguous m = true := by
  intro m
  induction m with
  | nil => intro _ n _; rfl
  | cons v rest ih =>
    intro hbound n h
    unfold simpleMaskLength at h
    by_cases hv : v = 255
    · subst hv
      rw [if_pos rfl] at h
      cases hr : simpleMaskLength rest with
      | none => rw [hr] at h; exact absurd h (by simp)
      | some k =>
        have hc := ih (fun x hx => hbound x (by simp [hx])) k hr
        show bitsContiguous (byteBits 255 ++ maskBits rest) = true
        have h255 : byteBits 255 =
            [true, true, true, true, true, true, true, true] := by decide
        rw [h255]
        simpa [bitsContiguous] using hc
    · rw [if_neg hv] at h
      cases hbo : byteOnes v with
      | none => rw [hbo] at h; exact absurd h (by simp)
      | some k =>
        rw [hbo] at h
        dsimp only [] at h
        have hz : allZero rest = true := by
          by_contra hzf
          rw [if_neg hzf] at h
          exact absurd h (by simp)
        rw [if_pos hz] at h
        show bitsContiguous (byteBits v ++ maskBits rest) = true
        exact bitsContiguous_append _ _
          (byteOnes_isSome_contig v (hbound v (by simp)) (by simp [hbo]))
          (maskBits_allZero rest hz)

/-- C3 counterexample: the claim says a non-contiguous mask decodes to its
count of leading one-bits (8 for "255.0.255.0"); the code returns 0 without
error, because `net.IPMask.Size` yields `(0, 0)` for a mask that is not in
canonical ones-then-zeros form. -/
theorem C3_counterexample :
    subnetMaskSize "255.0.255.0" = .ok 0 ∧
    maskLeadingOnes [255, 0, 255, 0] = 8 ∧
    subnetMaskSize "255.0.255.0" ≠
      .ok (maskLeadingOnes [255, 0, 255, 0]) := by decide

/-- C3 (amended): for every dotted string of exactly four octets that each
parse as an unsigned 8-bit integer but whose resulting mask is
non-contiguous, the Subnet Mask Decoder returns prefix length 0 without
error (e.g. "255.0.255.0" yields 0). -/
theorem C3_amended_noncontiguous_yields_zero
    (s : String) (p0 p1 p2 p3 : List Char) (n0 n1 n2 n3 : Nat)
    (hsplit : splitDot s.data = [p0, p1, p2, p3])
    (h0 : parseUint0Core p0 = .ok n0) (h1 : parseUint0Core p1 = .ok n1)
    (h2 : parseUint0Core p2 = .ok n2) (h3 : parseUint0Core p3 = .ok n3)
    (hnc : maskContiguous [n0, n1, n2, n3] = false) :
    subnetMaskSize s = .ok 0 := by
  simp only [subnetMaskSize]
  rw [hsplit]
  have hmap : parseOctets [p0, p1, p2, p3] = .ok [n0, n1, n2, n3] := by
    simp [parseOctets, h0, h1, h2, h3]
  have hsml : simpleMaskLength [n0, n1, n2, n3] = none := by
    cases hq : simpleMaskLength [n0, n1, n2, n3] with
    | none => rfl
    | some k =>
      have hbound : ∀ v ∈ [n0, n1, n2, n3], v < 256 := by
        have c0 := parseUint0Core_le p0 n0 h0
        have c1 := parseUint0Core_le p1 n1 h1
        have c2 := parseUint0Core_le p2 n2 h2
        have c3 := parseUint0Core_le p3 n3 h3
        intro v hv
        simp only [List.mem_cons, List.not_mem_nil, or_false] at hv
        rcases hv with rfl | rfl | rfl | rfl <;> omega
      have := simpleMaskLength_some_contig [n0, n1, n2, n3] hbound k hq
      rw [hnc] at this
      exact absurd this (by simp)
  simp only [List.length_cons, List.length_nil, hmap, maskSize, hsml]
  rfl

/-- Witness for the amended C3 at the mask "255.0.255.0". -/
theorem C3_witness : subnetMaskSize "255.0.255.0" = .ok 0 :=
  C3_amended_noncontiguous_yields_zero "255.0.255.0"
    "255".data "0".data "255".data "0".data 255 0 255 0
    (by decide) (by decide) (by decide) (by decide) (by decide) (by decide)

/-! ### C5: DHCPv6 per-prefix address derivation -/

/-- `cidrMaskAux` produces exactly `l` bytes. -/
theorem cidrMaskAux_length : ∀ (l n : Nat), (cidrMaskAux l n).length = l := by
  intro l
  induction l with
  | zero => intro n; rfl
  | succ k ih =>
    intro n
    unfold cidrMaskAux
    by_cases h8 : n ≥ 8
    · rw [if_pos h8]; simp [ih]
    · rw [if_neg h8]; simp [ih]

/-- `cidrMaskAux l 0` is all zeros. -/
theorem allZero_cidrMaskAux0 : ∀ l, allZero (cidrMaskAux l 0) = true := by
  intro l
  induction l with
  | zero => rfl
  | succ k ih =>
    unfold cidrMaskAux
    rw [if_neg (by omega)]
    simpa [allZero, List.all_cons] using ih

/-- The partial byte of a CIDR mask has the expected leading-ones count. -/
theorem byteOnes_partialByte : ∀ n < 8, byteOnes (255 - (255 >>> n)) = some n := by
  decide

/-- `simpleMaskLength` recovers the ones count of a canonical CIDR mask. -/
theorem simpleMaskLength_cidrMaskAux :
    ∀ (l n : Nat), n ≤ 8 * l → simpleMaskLength (cidrMaskAux l n) = some n := by
  intro l
  induction l with
  | zero =>
    intro n h
    have hn : n = 0 := by omega
    subst hn; rfl
  | succ k ih =>
    intro n h
    unfold cidrMaskAux
    by_cases h8 : n ≥ 8
    · rw [if_pos h8]
      unfold simpleMaskLength
      rw [if_pos rfl, ih (n - 8) (by omega)]
      show some (n - 8 + 8) = some n
      congr 1
      omega
    · rw [if_neg h8]
      unfold simpleMaskLength
      have hne : ¬ (255 - (255 >>> n) = 255) := by
        interval_cases n <;> decide
      rw [if_neg hne, byteOnes_partialByte n (by omega)]
      dsimp only []
      rw [if_pos (allZero_cidrMaskAux0 k)]

/-- `net.IPMask.Size` of `net.CIDRMask(plen, 128)` is `(plen, 128)`. -/
theorem maskSize_cidrMask (plen : Nat) (h : plen ≤ 128) :
    maskSize (cidrMask plen 128) = (plen, 128) := by
  unfold cidrMask
  rw [if_pos (Or.inr rfl), if_pos h]
  unfold maskSize
  have h16 : (128 : Nat) / 8 = 16 := by norm_num
  rw [h16, simpleMaskLength_cidrMaskAux 16 plen (by omega)]
  simp [cidrMaskAux_length]

/-- `setLastByte` sets the final byte to 1 and keeps the rest. -/
theorem setLastByte_eq : ∀ (ip : List Nat), ip ≠ [] →
    setLastByte ip = ip.dropLast ++ [1] := by
  intro ip
  induction ip with
  | nil => intro h; exact absurd rfl h
  | cons b rest ih =>
    intro _
    cases rest with
    | nil => rfl
    | cons c cs =>
      show b :: setLastByte (c :: cs) = (b :: c :: cs).dropLast ++ [1]
      rw [ih (by simp)]
      simp

/-- C5: for every delegated prefix with a canonical `/plen` mask, the DHCPv6
Lease Applier derives the address to install by setting the final address
byte to 1, widening the mask to exactly /64 when `plen < 64` and leaving it
unchanged otherwise; concretely 2001:db8::/48 yields 2001:db8::1/64 and
2001:db8:1::/64 yields 2001:db8:1::1/64. -/
theorem C5_dhcp6_derivation (ip : List Nat) (plen : Nat)
    (hlen : ip.length = 16) (hp : plen ≤ 128) :
    (derivePfx ⟨ip, cidrMask plen 128⟩).ip = ip.dropLast ++ [1] ∧
    (plen < 64 → (derivePfx ⟨ip, cidrMask plen 128⟩).mask = cidrMask 64 128) ∧
    (¬ plen < 64 → (derivePfx ⟨ip, cidrMask plen 128⟩).mask = cidrMask plen 128) ∧
    derivePfx ⟨[32, 1, 13, 184, 0, 0, 0, 0, 0, 0, 0, 0, 0, 0, 0, 0],
        cidrMask 48 128⟩ =
      ⟨[32, 1, 13, 184, 0, 0, 0, 0, 0, 0, 0, 0, 0, 0, 0, 1],
        cidrMask 64 128⟩ ∧
    derivePfx ⟨[32, 1, 13, 184, 0, 1, 0, 0, 0, 0, 0, 0, 0, 0, 0, 0],
        cidrMask 64 128⟩ =
      ⟨[32, 1, 13, 184, 0, 1, 0, 0, 0, 0, 0, 0, 0, 0, 0, 1],
        cidrMask 64 128⟩ := by
  have hms := maskSize_cidrMask plen hp
  have hne : ip ≠ [] := by
    intro h
    rw [h] at hlen
    exact absurd hlen (by simp)
  refine ⟨?_, ?_, ?_, by decide, by decide⟩
  · simp [derivePfx, setLastByte_eq ip hne]
  · intro h64
    simp [derivePfx, hms, h64]
  · intro h64
    simp [derivePfx, hms, h64]

/-- Witness for C5 at the prefix 2001:db8::/48. -/
theorem C5_witness :
    (derivePfx ⟨[32, 1, 13, 184, 0, 0, 0, 0, 0, 0, 0, 0, 0, 0, 0, 0],
        cidrMask 48 128⟩).ip =
      [32, 1, 13, 184, 0, 0, 0, 0, 0, 0, 0, 0, 0, 0, 0, 0].dropLast ++ [1] ∧
    (derivePfx ⟨[32, 1, 13, 184, 0, 0, 0, 0, 0, 0, 0, 0, 0, 0, 0, 0],
        cidrMask 48 128⟩).mask = cidrMask 64 128 :=
  ⟨(C5_dhcp6_derivation
      [32, 1, 13, 184, 0, 0, 0, 0, 0, 0, 0, 0, 0, 0, 0, 0] 48
      (by decide) (by decide)).1,
   (C5_dhcp6_derivation
      [32, 1, 13, 184, 0, 0, 0, 0, 0, 0, 0, 0, 0, 0, 0, 0] 48
      (by decide) (by decide)).2.1 (by omega)⟩

/-! ### Shape lemmas for the kernel operations -/

/-- Successful `linkSetName`: the oracle accepted and the name was updated. -/
theorem linkSetName_ok (env : Env) (s s1 : NetState) (idx : Nat) (n : String)
    (h : linkSetName env s idx n = (none, s1)) :
    env.linkSetNameErr idx n = none ∧
    s1 = { s with
           links := updName s.links idx n
           trace := s.trace ++ [Op.linkSetName idx n] } := by
  unfold linkSetName at h
  cases ho : env.linkSetNameErr idx n with
  | some e => rw [ho] at h; exact absurd h (by simp)
  | none =>
    rw [ho] at h
    refine ⟨rfl, ?_⟩
    injection h with h1 h2
    exact h2.symm

/-- Successful `linkSetUp`. -/
theorem linkSetUp_ok (env : Env) (s s1 : NetState) (idx : Nat)
    (h : linkSetUp env s idx = (none, s1)) :
    env.linkSetUpErr idx = none ∧
    s1 = { s with
           links := updUp s.links idx
           trace := s.trace ++ [Op.linkSetUp idx] } := by
  unfold linkSetUp at h
  cases ho : env.linkSetUpErr idx with
  | some e => rw [ho] at h; exact absurd h (by simp)
  | none =>
    rw [ho] at h
    refine ⟨rfl, ?_⟩
    injection h with h1 h2
    exact h2.symm

/-- Successful `addrReplace`: oracle accepted; the address is present
afterwards, nothing else changed, and a replace of an already present
address leaves the address list unchanged. -/
theorem addrReplace_ok (env : Env) (s s1 : NetState) (idx : Nat) (a : Addr)
    (h : addrReplace env s idx a = (none, s1)) :
    env.addrReplaceErr idx a = none ∧
    s1.links = s.links ∧ s1.routes = s.routes ∧ s1.sysctls = s.sysctls ∧
    s1.trace = s.trace ++ [Op.addrReplace idx a] ∧
    (idx, a) ∈ s1.addrs ∧
    (∀ x ∈ s.addrs, x ∈ s1.addrs) ∧
    ((idx, a) ∈ s.addrs → s1.addrs = s.addrs) := by
  unfold addrReplace at h
  cases ho : env.addrReplaceErr idx a with
  | some e => rw [ho] at h; exact absurd h (by simp)
  | none =>
    rw [ho] at h
    dsimp only [] at h
    by_cases hmem : (idx, a) ∈ s.addrs
    · rw [if_pos (by simpa using hmem)] at h
      injection h with h1 h2
      subst h2
      exact ⟨rfl, rfl, rfl, rfl, rfl, by simpa using hmem,
        fun x hx => hx, fun _ => rfl⟩
    · rw [if_neg (by simpa using hmem)] at h
      injection h with h1 h2
      subst h2
      refine ⟨rfl, rfl, rfl, rfl, rfl, by simp, ?_, fun hc => absurd hc hmem⟩
      intro x hx
      simp [hx]

/-- Successful `addrAdd`: the address was not present and is appended. -/
theorem addrAdd_ok (env : Env) (s s1 : NetState) (idx : Nat) (a : Addr)
    (h : addrAdd env s idx a = (none, s1)) :
    env.addrAddErr idx a = none ∧ (idx, a) ∉ s.addrs ∧
    s1 = { s with
           addrs := s.addrs ++ [(idx, a)]
           trace := s.trace ++ [Op.addrAdd idx a] } := by
  unfold addrAdd at h
  cases ho : env.addrAddErr idx a with
  | some e => rw [ho] at h; exact absurd h (by simp)
  | none =>
    rw [ho] at h
    dsimp only [] at h
    by_cases hmem : (idx, a) ∈ s.addrs
    · rw [if_pos (by simpa using hmem)] at h
      exact absurd h (by simp)
    · rw [if_neg (by simpa using hmem)] at h
      injection h with h1 h2
      exact ⟨rfl, hmem, h2.symm⟩

/-- A duplicate `addrAdd` fails whenever the oracle does not fail first. -/
theorem addrAdd_dup (env : Env) (s : NetState) (idx : Nat) (a : Addr)
    (ho : env.addrAddErr idx a = none) (hmem : (idx, a) ∈ s.addrs) :
    addrAdd env s idx a =
      (some Err.eexist, { s with trace := s.trace ++ [Op.addrAdd idx a] }) := by
  unfold addrAdd
  rw [ho]
  dsimp only []
  rw [if_pos (by simpa using hmem)]

/-- `applyLoop` over an appended list runs the second part from the first
part's final state, unless the first part failed. -/
theorem applyLoop_append (env : Env) (ds : List InterfaceDetails) :
    ∀ (xs ys : List Link) (s : NetState),
      applyLoop env ds s (xs ++ ys) =
        match applyLoop env ds s xs with
        | (some e, s1) => (some e, s1)
        | (none, s1) => applyLoop env ds s1 ys := by
  intro xs
  induction xs with
  | nil => intro ys s; rfl
  | cons x xs ih =>
    intro ys s
    have hstep : ∀ (t : NetState) (ls : List Link) (x : Link),
        applyLoop env ds t (x :: ls) =
          match applyOneInterface env ds t x with
          | (some e, s1) => (some e, s1)
          | (none, s1) => applyLoop env ds s1 ls := fun _ _ _ => rfl
    rw [List.cons_append, hstep, hstep]
    cases applyOneInterface env ds s x with
    | mk e s1 =>
      cases e with
      | none => dsimp only []; exact ih ys s1
      | some e1 => rfl

/-! ### C8: unmatched interfaces are untouched -/

/-- C8: a live interface whose hardware address matches no configuration
entry is skipped — no kernel operation, no state change, no error — and the
loop continues with the remaining interfaces. -/
theorem C8_unmatched_interface_untouched (env : Env)
    (ds : List InterfaceDetails) (s : NetState) (l : Link)
    (rest : List Link)
    (h : ∀ d ∈ ds, d.hardwareAddr ≠ l.hardwareAddr) :
    applyOneInterface env ds s l = (none, s) ∧
    applyLoop env ds s (l :: rest) = applyLoop env ds s rest := by
  have hlk : lookupHW ds l.hardwareAddr = none := by
    apply List.find?_eq_none.mpr
    intro d hd
    have := h d (List.mem_reverse.mp hd)
    simp [this]
  refine ⟨?_, ?_⟩
  · simp [applyOneInterface, hlk]
  · show (match applyOneInterface env ds s l with
      | (some e, s1) => (some e, s1)
      | (none, s1) => applyLoop env ds s1 rest) = applyLoop env ds s rest
    simp [applyOneInterface, hlk]

/-- Concrete configuration for the C8 witness: one entry that matches no
live interface. -/
def dsC8 : List InterfaceDetails := [⟨"00:11:22:33:44:55", "uplink0", ""⟩]

/-- Concrete live link whose hardware address is configured nowhere. -/
def lkC8 : Link := ⟨7, "eth3", "66:77:88:99:aa:bb", false⟩

/-- Witness for C8. -/
theorem C8_witness :
    applyOneInterface envBase dsC8 st0 lkC8 = (none, st0) ∧
    applyLoop envBase dsC8 st0 [lkC8] = applyLoop envBase dsC8 st0 [] :=
  C8_unmatched_interface_untouched envBase dsC8 st0 lkC8 [] (by decide)

/-! ### C9: DHCPv4 failures keep partial effects -/

/-- C9: when a kernel step of the DHCPv4 Lease Applier fails (address add,
host-route add, or default-route add), the applier returns that step's
error and the effects already applied stay in place: a host-route failure
leaves the address installed, and a default-route failure leaves both the
address and the host route installed. -/
theorem C9_dhcp4_no_rollback (env : Env) (iface : String) (s : NetState)
    (got : Dhcp4Config) (link : Link) (n : Nat) (addr : Addr)
    (e1 e2 e3 : Err)
    (hlease : env.dhcp4Lease = .ok got)
    (hlink : findLink s.links iface = some link)
    (hmask : subnetMaskSize got.subnetMask = .ok n)
    (hparse : env.parseAddr (got.clientIP ++ "/" ++ toString n) = .ok addr)
    (hnh : env.newHandleErr = none) :
    (env.addrAddErr link.index addr = some e1 →
      applyDhcp4 env iface s =
        (some (Err.wrapped "AddrAdd" e1),
         { s with trace := s.trace ++ [Op.addrAdd link.index addr] })) ∧
    (env.addrAddErr link.index addr = none →
     (link.index, addr) ∉ s.addrs →
     env.routeAddErr (hostRoute link got) = some e2 →
      ∃ s2, applyDhcp4 env iface s =
          (some (Err.wrapped "RouteAdd(router)" e2), s2) ∧
        (link.index, addr) ∈ s2.addrs) ∧
    (env.addrAddErr link.index addr = none →
     (link.index, addr) ∉ s.addrs →
     env.routeAddErr (hostRoute link got) = none →
     hostRoute link got ∉ s.routes →
     env.routeAddErr (defaultRoute link got) = some e3 →
      ∃ s2, applyDhcp4 env iface s =
          (some (Err.wrapped "RouteAdd(default)" e3), s2) ∧
        (link.index, addr) ∈ s2.addrs ∧ hostRoute link got ∈ s2.routes) := by
  refine ⟨?_, ?_, ?_⟩
  · intro ha
    simp [applyDhcp4, hlease, hlink, hmask, hparse, hnh, step, addrAdd, ha]
  · intro ha hmem hr
    refine ⟨{ s with
        addrs := s.addrs ++ [(link.index, addr)]
        trace := s.trace ++ [Op.addrAdd link.index addr,
          Op.routeAdd (hostRoute link got)] }, ?_, by simp⟩
    simp [applyDhcp4, hlease, hlink, hmask, hparse, hnh, step, addrAdd,
      routeAdd, ha, hmem, hr]
  · intro ha hmem hr hrmem hd
    refine ⟨{ s with
        addrs := s.addrs ++ [(link.index, addr)]
        routes := s.routes ++ [hostRoute link got]
        trace := s.trace ++ [Op.addrAdd link.index addr,
          Op.routeAdd (hostRoute link got),
          Op.routeAdd (defaultRoute link got)] }, ?_, by simp, by simp⟩
    simp [applyDhcp4, hlease, hlink, hmask, hparse, hnh, step, addrAdd,
      routeAdd, ha, hmem, hr, hrmem, hd]

/-- Concrete DHCPv4 lease for the C9 witness. -/
def leaseC9 : Dhcp4Config := ⟨"10.0.0.2", "255.255.255.0", "10.0.0.1"⟩

/-- Concrete uplink link for the C9 witness. -/
def lkC9 : Link := ⟨2, "uplink0", "aa:bb:cc:dd:ee:ff", true⟩

/-- Environment for the C9 witness: everything succeeds except the
default-route add. -/
def envC9 : Env :=
  { envBase with
    dhcp4Lease := .ok leaseC9
    parseAddr := fun str =>
      if str = "10.0.0.2/24" then .ok ⟨[10, 0, 0, 2], 24⟩
      else .error (Err.parseError "ParseAddr")
    routeAddErr := fun r =>
      if r.dstPlen = 0 then some (Err.osError "ENETUNREACH") else none }

/-- Initial state for the C9 witness. -/
def stC9 : NetState := ⟨[lkC9], [], [], [], []⟩

/-- Witness for C9: the default-route add fails, the applier returns its
error, and the address and host route remain installed. -/
theorem C9_witness :
    ∃ s2, applyDhcp4 envC9 "uplink0" stC9 =
        (some (Err.wrapped "RouteAdd(default)" (Err.osError "ENETUNREACH")),
          s2) ∧
      (lkC9.index, Addr.mk [10, 0, 0, 2] 24) ∈ s2.addrs ∧
      hostRoute lkC9 leaseC9 ∈ s2.routes :=
  (C9_dhcp4_no_rollback envC9 "uplink0" stC9 leaseC9 lkC9 24
      ⟨[10, 0, 0, 2], 24⟩ Err.eexist Err.eexist (Err.osError "ENETUNREACH")
      rfl (by decide) (by decide) (by decide) rfl).2.2
    rfl (by decide) (by decide) (by decide) (by decide)

/-! ### Characterization of the interface loop body -/

/-- The link list produced by a successful matched iteration: rename when
the snapshot name differs, then mark up when the snapshot was down. -/
def renamedLinks (links : List Link) (l : Link) (d : InterfaceDetails) :
    List Link :=
  let t1 := if l.name ≠ d.name then updName links l.index d.name else links
  if l.operUp then t1 else updUp t1 l.index

/-- Successful address part: addresses only grow, the desired address ends
up present, links/routes/sysctls are untouched, and the trace records
exactly the one `AddrReplace` attempt (none when no address is desired). -/
theorem applyAddrPart_ok (env : Env) (d : InterfaceDetails) (l : Link)
    (s s1 : NetState) (h : applyAddrPart env d l s = (none, s1)) :
    s1.links = s.links ∧ s1.routes = s.routes ∧ s1.sysctls = s.sysctls ∧
    (∀ x ∈ s.addrs, x ∈ s1.addrs) ∧
    ∃ tail, s1.trace = s.trace ++ tail ∧
      (d.addr = "" → tail = [] ∧ s1.addrs = s.addrs) ∧
      (d.addr ≠ "" → ∃ a, env.parseAddr d.addr = .ok a ∧
        tail = [Op.addrReplace l.index a] ∧
        env.addrReplaceErr l.index a = none ∧
        (l.index, a) ∈ s1.addrs ∧
        ((l.index, a) ∈ s.addrs → s1.addrs = s.addrs)) := by
  unfold applyAddrPart at h
  by_cases hd : d.addr ≠ ""
  · rw [if_pos hd] at h
    cases hp : env.parseAddr d.addr with
    | error e => rw [hp] at h; exact absurd h (by simp [step])
    | ok a =>
      rw [hp] at h
      dsimp only [] at h
      cases hr : addrReplace env s l.index a with
      | mk e2 t =>
        rw [hr] at h
        cases e2 with
        | some e => exact absurd h (by simp [step])
        | none =>
          have ht : t = s1 := by simpa [step] using h
          subst ht
          obtain ⟨ho, hl, hro, hsy, htr, hmem, hsup, hsame⟩ :=
            addrReplace_ok env s t l.index a hr
          exact ⟨hl, hro, hsy, hsup, [Op.addrReplace l.index a], htr,
            fun hc => absurd hc hd,
            fun _ => ⟨a, rfl, rfl, ho, hmem, hsame⟩⟩
  · rw [if_neg hd] at h
    have hs : s = s1 := by simpa using h
    subst hs
    exact ⟨rfl, rfl, rfl, fun x hx => hx, [], by simp,
      fun _ => ⟨rfl, rfl⟩, fun hc => absurd hc hd⟩

/-- Successful up-then-address part. -/
theorem applyUpAddr_ok (env : Env) (d : InterfaceDetails) (l : Link)
    (s s1 : NetState) (h : applyUpPart env d l s = (none, s1)) :
    s1.links = (if l.operUp then s.links else updUp s.links l.index) ∧
    s1.routes = s.routes ∧ s1.sysctls = s.sysctls ∧
    (∀ x ∈ s.addrs, x ∈ s1.addrs) ∧
    ∃ tail, s1.trace = s.trace
        ++ (if l.operUp then [] else [Op.linkSetUp l.index]) ++ tail ∧
      (d.addr = "" → tail = [] ∧ s1.addrs = s.addrs) ∧
      (d.addr ≠ "" → ∃ a, env.parseAddr d.addr = .ok a ∧
        tail = [Op.addrReplace l.index a] ∧
        env.addrReplaceErr l.index a = none ∧
        (l.index, a) ∈ s1.addrs ∧
        ((l.index, a) ∈ s.addrs → s1.addrs = s.addrs)) := by
  unfold applyUpPart at h
  by_cases hu : l.operUp
  · rw [if_pos hu] at h
    have h' : applyAddrPart env d l s = (none, s1) := by simpa [step] using h
    obtain ⟨hl, hro, hsy, hsup, tail, htr, hemp, haddr⟩ :=
      applyAddrPart_ok env d l s s1 h'
    rw [if_pos hu, if_pos hu]
    exact ⟨hl, hro, hsy, hsup, tail, by simpa using htr, hemp, haddr⟩
  · rw [if_neg hu] at h
    cases h1 : linkSetUp env s l.index with
    | mk e t =>
      rw [h1] at h
      cases e with
      | some e1 => exact absurd h (by simp [step])
      | none =>
        have h' : applyAddrPart env d l t = (none, s1) := by
          simpa [step] using h
        obtain ⟨ho, ht⟩ := linkSetUp_ok env s t l.index h1
        subst ht
        obtain ⟨hl, hro, hsy, hsup, tail, htr, hemp, haddr⟩ :=
          applyAddrPart_ok env d l _ s1 h'
        rw [if_neg hu, if_neg hu]
        refine ⟨by simpa using hl, hro, hsy, by simpa using hsup,
          tail, ?_, hemp, haddr⟩
        simpa [List.append_assoc] using htr

/-- Full characterization of a successful matched iteration of the
interface loop: the link is renamed exactly when the snapshot name differs
and brought up exactly when the snapshot was down, in that order and before
any address work; addresses only grow; routes and sysctls are untouched. -/
theorem applyOne_matched_ok (env : Env) (ds : List InterfaceDetails)
    (s s1 : NetState) (l : Link) (d : InterfaceDetails)
    (hm : lookupHW ds l.hardwareAddr = some d)
    (h : applyOneInterface env ds s l = (none, s1)) :
    s1.links = renamedLinks s.links l d ∧
    s1.routes = s.routes ∧ s1.sysctls = s.sysctls ∧
    (∀ x ∈ s.addrs, x ∈ s1.addrs) ∧
    ∃ tail, s1.trace = s.trace
        ++ (if l.name ≠ d.name then [Op.linkSetName l.index d.name] else [])
        ++ (if l.operUp then [] else [Op.linkSetUp l.index]) ++ tail ∧
      (d.addr = "" → tail = [] ∧ s1.addrs = s.addrs) ∧
      (d.addr ≠ "" → ∃ a, env.parseAddr d.addr = .ok a ∧
        tail = [Op.addrReplace l.index a] ∧
        env.addrReplaceErr l.index a = none ∧
        (l.index, a) ∈ s1.addrs ∧
        ((l.index, a) ∈ s.addrs → s1.addrs = s.addrs)) := by
  unfold applyOneInterface at h
  rw [hm] at h
  dsimp only [] at h
  simp only [renamedLinks]
  by_cases hn : l.name ≠ d.name
  · rw [if_pos hn] at h
    cases h1 : linkSetName env s l.index d.name with
    | mk e t =>
      rw [h1] at h
      cases e with
      | some e1 => exact absurd h (by simp [step])
      | none =>
        have h' : applyUpPart env d l t = (none, s1) := by simpa [step] using h
        obtain ⟨ho, ht⟩ := linkSetName_ok env s t l.index d.name h1
        subst ht
        obtain ⟨hl, hro, hsy, hsup, tail, htr, hemp, haddr⟩ :=
          applyUpAddr_ok env d l _ s1 h'
        rw [if_pos hn, if_pos hn]
        refine ⟨by simpa using hl, hro, hsy, by simpa using hsup,
          tail, ?_, hemp, haddr⟩
        simpa [List.append_assoc] using htr
  · rw [if_neg hn] at h
    have h' : applyUpPart env d l s = (none, s1) := by simpa [step] using h
    obtain ⟨hl, hro, hsy, hsup, tail, htr, hemp, haddr⟩ :=
      applyUpAddr_ok env d l s s1 h'
    rw [if_neg hn, if_neg hn]
    exact ⟨hl, hro, hsy, hsup, tail, by simpa using htr, hemp, haddr⟩

/-! ### C7: per-interface operation order and abort-on-first-error -/

/-- C7: for a matched live interface, the kernel operations attempted are,
in order: a rename exactly when the live name differs, a bring-up exactly
when the interface is not already up (after any rename, before any address
work), then one `AddrReplace` exactly when a desired address is present;
and the first failing iteration makes `applyInterfaces` return its error
with all remaining interfaces unprocessed. -/
theorem C7_interface_order_and_abort (env : Env) (ds : List InterfaceDetails)
    (cfg : InterfaceConfig) (s s1 sA sB s2 : NetState) (l m : Link)
    (d : InterfaceDetails) (e : Err) (pre post : List Link) :
    (lookupHW ds l.hardwareAddr = some d →
     applyOneInterface env ds s l = (none, s1) →
      ∃ tail,
        s1.trace = s.trace
          ++ (if l.name ≠ d.name then [Op.linkSetName l.index d.name] else [])
          ++ (if l.operUp then [] else [Op.linkSetUp l.index]) ++ tail ∧
        (d.addr = "" → tail = []) ∧
        (d.addr ≠ "" → ∃ a, env.parseAddr d.addr = .ok a ∧
          tail = [Op.addrReplace l.index a])) ∧
    (env.interfacesJson = .ok cfg → env.linkListErr = none →
     sA.links = pre ++ m :: post →
     applyLoop env cfg.interfaces sA pre = (none, sB) →
     applyOneInterface env cfg.interfaces sB m = (some e, s2) →
     applyInterfaces env sA = (some e, s2)) := by
  constructor
  · intro hm h
    obtain ⟨_, _, _, _, tail, htr, hemp, haddr⟩ :=
      applyOne_matched_ok env ds s s1 l d hm h
    refine ⟨tail, htr, fun hc => (hemp hc).1, fun hc => ?_⟩
    obtain ⟨a, hpa, htl, _, _, _⟩ := haddr hc
    exact ⟨a, hpa, htl⟩
  · intro hc hll hsplit hpre hfail
    have h0 : applyInterfaces env sA =
        applyLoop env cfg.interfaces sA sA.links := by
      simp [applyInterfaces, hc, hll]
    rw [h0, hsplit, applyLoop_append, hpre]
    have hstep : applyLoop env cfg.interfaces sB (m :: post) =
        match applyOneInterface env cfg.interfaces sB m with
        | (some e1, t) => (some e1, t)
        | (none, t) => applyLoop env cfg.interfaces t post := rfl
    dsimp only []
    rw [hstep, hfail]

/-- Configuration entry matched in the first part of the C7 witness. -/
def dC7 : InterfaceDetails := ⟨"aa:aa:aa:aa:aa:aa", "uplink0", ""⟩

/-- Live link for the first part of the C7 witness: wrong name, down. -/
def lkC7 : Link := ⟨1, "eth0", "aa:aa:aa:aa:aa:aa", false⟩

/-- Live link for the second part of the C7 witness: its rename fails. -/
def lkC7b : Link := ⟨9, "eth1", "bb:bb:bb:bb:bb:bb", false⟩

/-- Environment for the C7 witness: renaming link index 9 fails. -/
def envC7 : Env :=
  { envBase with
    interfacesJson := .ok ⟨[⟨"bb:bb:bb:bb:bb:bb", "lan0", ""⟩]⟩
    linkSetNameErr := fun idx _ =>
      if idx = 9 then some (Err.osError "EBUSY") else none }

/-- State for the first part of the C7 witness. -/
def stC7 : NetState := ⟨[lkC7], [], [], [], []⟩

/-- Final state of the successful first-part iteration. -/
def stC7i : NetState :=
  ⟨[⟨1, "uplink0", "aa:aa:aa:aa:aa:aa", true⟩], [], [], [],
   [Op.linkSetName 1 "uplink0", Op.linkSetUp 1]⟩

/-- State for the second part of the C7 witness. -/
def stC7A : NetState := ⟨[lkC7b], [], [], [], []⟩

/-- Final state of the failing second-part iteration. -/
def stC7f : NetState :=
  ⟨[lkC7b], [], [], [], [Op.linkSetName 9 "lan0"]⟩

/-- Witness for C7: a successful matched iteration records rename then
bring-up (no address work), and a failing rename aborts `applyInterfaces`
with the wrapped error. -/
theorem C7_witness :
    (∃ tail,
      stC7i.trace = stC7.trace
        ++ (if lkC7.name ≠ dC7.name then
              [Op.linkSetName lkC7.index dC7.name] else [])
        ++ (if lkC7.operUp then [] else [Op.linkSetUp lkC7.index]) ++ tail ∧
      (dC7.addr = "" → tail = []) ∧
      (dC7.addr ≠ "" → ∃ a, envC7.parseAddr dC7.addr = .ok a ∧
        tail = [Op.addrReplace lkC7.index a])) ∧
    applyInterfaces envC7 stC7A =
      (some (Err.wrapped "LinkSetName" (Err.osError "EBUSY")), stC7f) :=
  ⟨(C7_interface_order_and_abort envC7 [dC7] ⟨[⟨"bb:bb:bb:bb:bb:bb", "lan0", ""⟩]⟩
      stC7 stC7i stC7A stC7A stC7f lkC7 lkC7b dC7
      (Err.wrapped "LinkSetName" (Err.osError "EBUSY")) [] []).1
      (by decide) (by decide),
   (C7_interface_order_and_abort envC7 [dC7] ⟨[⟨"bb:bb:bb:bb:bb:bb", "lan0", ""⟩]⟩
      stC7 stC7i stC7A stC7A stC7f lkC7 lkC7b dC7
      (Err.wrapped "LinkSetName" (Err.osError "EBUSY")) [] []).2
      rfl rfl (by decide) (by decide) (by decide)⟩

/-! ### C6: idempotence of the Interface Applier, non-idempotence of DHCPv6 -/

/-- A live link is "done" in a state when its iteration of the interface
loop cannot mutate anything: either it matches no configuration entry, or
its name and up-state already agree and the desired address (when present)
parses, is accepted by the kernel, and is already installed. -/
def linkDone (env : Env) (ds : List InterfaceDetails) (s : NetState)
    (l : Link) : Prop :=
  match lookupHW ds l.hardwareAddr with
  | none => True
  | some d =>
    l.name = d.name ∧ l.operUp = true ∧
    (d.addr ≠ "" → ∃ a, env.parseAddr d.addr = .ok a ∧
      env.addrReplaceErr l.index a = none ∧ (l.index, a) ∈ s.addrs)

/-- `linkDone` only depends on the state through address membership, so it
is preserved when the address set grows. -/
theorem linkDone_mono (env : Env) (ds : List InterfaceDetails)
    (s t : NetState) (l : Link) (hsub : ∀ x ∈ s.addrs, x ∈ t.addrs)
    (h : linkDone env ds s l) : linkDone env ds t l := by
  unfold linkDone at h ⊢
  cases hq : lookupHW ds l.hardwareAddr with
  | none => trivial
  | some d =>
    rw [hq] at h
    obtain ⟨h1, h2, h3⟩ := h
    refine ⟨h1, h2, fun hne => ?_⟩
    obtain ⟨a, hpa, ho, hm⟩ := h3 hne
    exact ⟨a, hpa, ho, hsub _ hm⟩

/-- A done link's iteration succeeds and changes nothing but the trace. -/
theorem applyOne_done (env : Env) (ds : List InterfaceDetails)
    (s : NetState) (l : Link) (hd : linkDone env ds s l) :
    ∃ t, applyOneInterface env ds s l = (none, t) ∧
      t.addrs = s.addrs ∧ t.links = s.links ∧ t.routes = s.routes ∧
      t.sysctls = s.sysctls := by
  unfold applyOneInterface
  unfold linkDone at hd
  cases hm : lookupHW ds l.hardwareAddr with
  | none => exact ⟨s, rfl, rfl, rfl, rfl, rfl⟩
  | some d =>
    rw [hm] at hd
    obtain ⟨hname, hup, haddr⟩ := hd
    dsimp only []
    rw [if_neg (by simp [hname])]
    simp only [step]
    unfold applyUpPart
    rw [if_pos hup]
    simp only [step]
    unfold applyAddrPart
    by_cases hda : d.addr ≠ ""
    · rw [if_pos hda]
      obtain ⟨a, hpa, ho, hmem⟩ := haddr hda
      rw [hpa]
      dsimp only []
      unfold addrReplace
      rw [ho]
      dsimp only []
      rw [if_pos (by simpa using hmem)]
      simp only [step]
      exact ⟨_, rfl, rfl, rfl, rfl, rfl⟩
    · rw [if_neg hda]
      exact ⟨s, rfl, rfl, rfl, rfl, rfl⟩

/-- A loop over links that are all done succeeds and leaves the link,
address, route and sysctl state unchanged. -/
theorem applyLoop_stable (env : Env) (ds : List InterfaceDetails) :
    ∀ (ls : List Link) (s : NetState),
      (∀ l ∈ ls, linkDone env ds s l) →
      ∃ s2, applyLoop env ds s ls = (none, s2) ∧
        s2.addrs = s.addrs ∧ s2.links = s.links ∧
        s2.routes = s.routes ∧ s2.sysctls = s.sysctls := by
  intro ls
  induction ls with
  | nil => intro s _; exact ⟨s, rfl, rfl, rfl, rfl, rfl⟩
  | cons x rest ih =>
    intro s hall
    obtain ⟨t, h1, ha, hl, hr, hs⟩ := applyOne_done env ds s x (hall x (by simp))
    have hstep : applyLoop env ds s (x :: rest) =
        match applyOneInterface env ds s x with
        | (some e, u) => (some e, u)
        | (none, u) => applyLoop env ds u rest := rfl
    rw [hstep, h1]
    dsimp only []
    have hall' : ∀ l ∈ rest, linkDone env ds t l := by
      intro l hlm
      exact linkDone_mono env ds s t l (fun x hx => by rw [ha]; exact hx)
        (hall l (by simp [hlm]))
    obtain ⟨s2, h2, a2, l2, r2, y2⟩ := ih t hall'
    exact ⟨s2, h2, by rw [a2, ha], by rw [l2, hl], by rw [r2, hr],
      by rw [y2, hs]⟩

/-- Renaming an index that occurs nowhere is a no-op. -/
theorem updName_skip (idx : Nat) (n : String) :
    ∀ (xs : List Link), (∀ x ∈ xs, x.index ≠ idx) → updName xs idx n = xs := by
  intro xs
  induction xs with
  | nil => intro _; rfl
  | cons y ys ih =>
    intro hxs
    have h1 : updName (y :: ys) idx n =
        (if y.index = idx then { y with name := n } else y) ::
          updName ys idx n := rfl
    rw [h1, if_neg (hxs y (by simp)), ih (fun z hz => hxs z (by simp [hz]))]

/-- Bringing up an index that occurs nowhere is a no-op. -/
theorem updUp_skip (idx : Nat) :
    ∀ (xs : List Link), (∀ x ∈ xs, x.index ≠ idx) → updUp xs idx = xs := by
  intro xs
  induction xs with
  | nil => intro _; rfl
  | cons y ys ih =>
    intro hxs
    have h1 : updUp (y :: ys) idx =
        (if y.index = idx then { y with operUp := true } else y) ::
          updUp ys idx := rfl
    rw [h1, if_neg (hxs y (by simp)), ih (fun z hz => hxs z (by simp [hz]))]

/-- Positional effect of `updName` when only the middle element has the
target index. -/
theorem updName_split (pre post : List Link) (x : Link) (n : String)
    (hpre : ∀ y ∈ pre, y.index ≠ x.index)
    (hpost : ∀ y ∈ post, y.index ≠ x.index) :
    updName (pre ++ x :: post) x.index n =
      pre ++ { x with name := n } :: post := by
  have h1 : updName (pre ++ x :: post) x.index n =
      updName pre x.index n ++ updName (x :: post) x.index n := by
    simp [updName]
  have h2 : updName (x :: post) x.index n =
      { x with name := n } :: updName post x.index n := by
    simp [updName]
  rw [h1, h2, updName_skip _ _ pre hpre, updName_skip _ _ post hpost]

/-- Positional effect of `updUp` when only the middle element has the
target index. -/
theorem updUp_split (pre post : List Link) (x : Link) (idx : Nat)
    (hx : x.index = idx)
    (hpre : ∀ y ∈ pre, y.index ≠ idx) (hpost : ∀ y ∈ post, y.index ≠ idx) :
    updUp (pre ++ x :: post) idx = pre ++ { x with operUp := true } :: post := by
  have h1 : updUp (pre ++ x :: post) idx =
      updUp pre idx ++ updUp (x :: post) idx := by
    simp [updUp]
  have h2 : updUp (x :: post) idx =
      { x with operUp := true } :: updUp post idx := by
    simp [updUp, hx]
  rw [h1, h2, updUp_skip _ pre hpre, updUp_skip _ post hpost]

/-- Positional effect of a full matched iteration on the link list. -/
theorem renamedLinks_split (pre post : List Link) (x : Link)
    (d : InterfaceDetails)
    (hpre : ∀ y ∈ pre, y.index ≠ x.index)
    (hpost : ∀ y ∈ post, y.index ≠ x.index) :
    renamedLinks (pre ++ x :: post) x d =
      pre ++ { x with name := d.name, operUp := true } :: post := by
  simp only [renamedLinks]
  by_cases hn : x.name ≠ d.name
  · rw [if_pos hn, updName_split pre post x d.name hpre hpost]
    by_cases hu : x.operUp
    · rw [if_pos hu]
      have hxe : ({ x with name := d.name } : Link) =
          { x with name := d.name, operUp := true } := by
        cases x
        simp_all
      rw [hxe]
    · rw [if_neg hu,
        updUp_split pre post { x with name := d.name } x.index rfl hpre hpost]
  · have hn' : x.name = d.name := not_not.mp hn
    rw [if_neg hn]
    by_cases hu : x.operUp
    · rw [if_pos hu]
      have hxe : x = ({ x with name := d.name, operUp := true } : Link) := by
        cases x
        simp_all
      rw [← hxe]
    · rw [if_neg hu, updUp_split pre post x x.index rfl hpre hpost]
      have hxe : ({ x with operUp := true } : Link) =
          { x with name := d.name, operUp := true } := by
        cases x
        simp_all
      rw [hxe]

/-- After a successful run of the interface loop over a snapshot that
carried every state link exactly once (distinct kernel indices), every link
of the final state is done: a second run cannot mutate anything. -/
theorem applyLoop_establishes (env : Env) (ds : List InterfaceDetails) :
    ∀ (ls pre : List Link) (s s1 : NetState),
      s.links = pre ++ ls →
      ((pre ++ ls).map Link.index).Nodup →
      (∀ l ∈ pre, linkDone env ds s l) →
      applyLoop env ds s ls = (none, s1) →
      ∀ l ∈ s1.links, linkDone env ds s1 l := by
  intro ls
  induction ls with
  | nil =>
    intro pre s s1 hlk hnd hpre h
    have hs : s = s1 := by simpa [applyLoop] using h
    subst hs
    intro l hl
    apply hpre l
    rw [hlk] at hl
    simpa using hl
  | cons x rest ih =>
    intro pre s s1 hlk hnd hpre h
    have hstep : applyLoop env ds s (x :: rest) =
        match applyOneInterface env ds s x with
        | (some e, u) => (some e, u)
        | (none, u) => applyLoop env ds u rest := rfl
    rw [hstep] at h
    cases h1 : applyOneInterface env ds s x with
    | mk e t =>
      rw [h1] at h
      cases e with
      | some e1 => exact absurd h (by simp)
      | none =>
        dsimp only [] at h
        have hmapnd := hnd
        rw [List.map_append, List.map_cons] at hmapnd
        have hdisj := List.disjoint_of_nodup_append hmapnd
        have hx_pre : ∀ y ∈ pre, y.index ≠ x.index := by
          intro y hy he
          exact hdisj (List.mem_map_of_mem Link.index hy) (by simp [he])
        have hnd_right := hmapnd.of_append_right
        have hx_rest : ∀ y ∈ rest, y.index ≠ x.index := by
          intro y hy he
          have hx_notin := (List.nodup_cons.mp hnd_right).1
          exact hx_notin (by
            rw [← he]
            exact List.mem_map_of_mem Link.index hy)
        cases hm : lookupHW ds x.hardwareAddr with
        | none =>
          have ht : t = s := by
            unfold applyOneInterface at h1
            rw [hm] at h1
            dsimp only [] at h1
            injection h1 with h1a h1b
            exact h1b.symm
          subst ht
          apply ih (pre ++ [x]) t s1 (by simpa using hlk) (by simpa using hnd)
            (by
              intro l hl
              rcases List.mem_append.mp hl with hp | hx
              · exact hpre l hp
              · have hlx : l = x := by simpa using hx
                subst hlx
                unfold linkDone
                rw [hm]
                trivial)
            h
        | some d =>
          obtain ⟨hlk1, hro, hsy, hsup, tail, htr, hemp, haddr⟩ :=
            applyOne_matched_ok env ds s t x d hm h1
          rw [hlk, renamedLinks_split pre rest x d hx_pre hx_rest] at hlk1
          apply ih (pre ++ [{ x with name := d.name, operUp := true }]) t s1
            (by simpa using hlk1)
            (by
              have heq : ((pre ++ [{ x with name := d.name, operUp := true }])
                    ++ rest).map Link.index =
                  ((pre ++ x :: rest).map Link.index) := by
                simp
              rw [heq]
              exact hnd)
            (by
              intro l hl
              rcases List.mem_append.mp hl with hp | hx
              · exact linkDone_mono env ds s t l hsup (hpre l hp)
              · have hlx : l = { x with name := d.name, operUp := true } := by
                  simpa using hx
                subst hlx
                unfold linkDone
                have hhw : ({ x with name := d.name, operUp := true } :
                    Link).hardwareAddr = x.hardwareAddr := rfl
                rw [hhw, hm]
                refine ⟨rfl, rfl, fun hda => ?_⟩
                obtain ⟨a, hpa, htl, ho, hmemt, hsame⟩ := haddr hda
                exact ⟨a, hpa, ho, hmemt⟩)
            h

/-- A successful DHCPv6 prefix loop never touches the links and only grows
the address set. -/
theorem dhcp6Loop_ok_frame (env : Env) (link : Link) :
    ∀ (ps : List IPNet) (s s1 : NetState),
      dhcp6Loop env link s ps = (none, s1) →
      s1.links = s.links ∧ (∀ x ∈ s.addrs, x ∈ s1.addrs) := by
  intro ps
  induction ps with
  | nil =>
    intro s s1 h
    have hs : s = s1 := by simpa [dhcp6Loop] using h
    subst hs
    exact ⟨rfl, fun x hx => hx⟩
  | cons p rest ih =>
    intro s s1 h
    unfold dhcp6Loop at h
    cases hpa : env.parsePfxAddr (derivePfx p) with
    | error e => rw [hpa] at h; exact absurd h (by simp)
    | ok a =>
      rw [hpa] at h
      dsimp only [] at h
      cases h1 : addrAdd env s link.index a with
      | mk e1 u =>
        rw [h1] at h
        cases e1 with
        | some e2 => exact absurd h (by simp)
        | none =>
          dsimp only [] at h
          obtain ⟨ho, hnm, hu⟩ := addrAdd_ok env s u link.index a h1
          obtain ⟨hl, hsub⟩ := ih u s1 h
          subst hu
          exact ⟨by simpa using hl, fun x hx => hsub x (by simp [hx])⟩

/-- C6: re-running the Interface Applier on its own output is a successful
no-op on the link and address state (replace semantics), whereas re-running
the DHCPv6 Lease Applier after a successful run with at least one delegated
prefix fails (add semantics: the duplicate `AddrAdd` is refused).  The
`Nodup` hypothesis states that live links have pairwise distinct kernel
indices, which the kernel guarantees. -/
theorem C6_idempotence_asymmetry
    (env : Env) (iface : String) (s s' t t' : NetState) (got : Dhcp6Config)
    (hnd : (s.links.map Link.index).Nodup)
    (hA : applyInterfaces env s = (none, s'))
    (hlease : env.dhcp6Lease = .ok got)
    (hne : got.prefixes ≠ [])
    (hB : applyDhcp6 env iface t = (none, t')) :
    (∃ s2, applyInterfaces env s' = (none, s2) ∧
      s2.addrs = s'.addrs ∧ s2.links = s'.links) ∧
    (∃ e, (applyDhcp6 env iface t').1 = some e) := by
  constructor
  · unfold applyInterfaces at hA ⊢
    cases hc : env.interfacesJson with
    | error e =>
      rw [hc] at hA
      exact absurd hA (by simp)
    | ok cfg =>
      rw [hc] at hA
      dsimp only [] at hA ⊢
      cases hll : env.linkListErr with
      | some e =>
        rw [hll] at hA
        dsimp only [] at hA ⊢
        have hs : s = s' := by simpa [applyLoop] using hA
        subst hs
        exact ⟨s, by simp [applyLoop], rfl, rfl⟩
      | none =>
        rw [hll] at hA
        dsimp only [] at hA ⊢
        have hdone := applyLoop_establishes env cfg.interfaces s.links [] s s'
          rfl (by simpa using hnd) (by simp) hA
        obtain ⟨s2, h2, ha2, hl2, _, _⟩ :=
          applyLoop_stable env cfg.interfaces s'.links s' hdone
        exact ⟨s2, h2, ha2, hl2⟩
  · unfold applyDhcp6 at hB ⊢
    rw [hlease] at hB ⊢
    dsimp only [] at hB ⊢
    cases hfl : findLink t.links iface with
    | none =>
      rw [hfl] at hB
      exact absurd hB (by simp)
    | some link =>
      rw [hfl] at hB
      dsimp only [] at hB
      cases hps : got.prefixes with
      | nil => exact absurd hps hne
      | cons p rest =>
        rw [hps] at hB
        unfold dhcp6Loop at hB
        cases hpa : env.parsePfxAddr (derivePfx p) with
        | error e =>
          rw [hpa] at hB
          exact absurd hB (by simp)
        | ok a =>
          rw [hpa] at hB
          dsimp only [] at hB
          cases h1 : addrAdd env t link.index a with
          | mk e1 u =>
            cases e1 with
            | some e2 =>
              rw [h1] at hB
              exact absurd hB (by simp)
            | none =>
              rw [h1] at hB
              dsimp only [] at hB
              obtain ⟨ho, hnm, hu⟩ := addrAdd_ok env t u link.index a h1
              obtain ⟨hl6, hsub⟩ := dhcp6Loop_ok_frame env link rest u t' hB
              have htl : t'.links = t.links := by
                rw [hl6, hu]
              have hmem : (link.index, a) ∈ t'.addrs := by
                apply hsub
                rw [hu]
                simp
              rw [htl, hfl]
              dsimp only []
              unfold dhcp6Loop
              rw [hpa]
              dsimp only []
              rw [addrAdd_dup env t' link.index a ho hmem]
              exact ⟨Err.wrapped "AddrAdd" Err.eexist, rfl⟩

/-- Live link for the interface half of the C6 witness. -/
def lkC6 : Link := ⟨1, "eth0", "cc:cc:cc:cc:cc:cc", false⟩

/-- Configuration entry for the interface half of the C6 witness. -/
def dC6 : InterfaceDetails := ⟨"cc:cc:cc:cc:cc:cc", "uplink0", "192.168.1.1/24"⟩

/-- Parsed desired address of `dC6`. -/
def aC6 : Addr := ⟨[192, 168, 1, 1], 24⟩

/-- Delegated prefix 2001:db8::/48 for the DHCPv6 half of the C6 witness. -/
def pfxC6 : IPNet :=
  ⟨[32, 1, 13, 184, 0, 0, 0, 0, 0, 0, 0, 0, 0, 0, 0, 0], cidrMask 48 128⟩

/-- Derived DHCPv6 address 2001:db8::1/64. -/
def a6C6 : Addr := ⟨[32, 1, 13, 184, 0, 0, 0, 0, 0, 0, 0, 0, 0, 0, 0, 1], 64⟩

/-- Environment for the C6 witness. -/
def envC6 : Env :=
  { envBase with
    interfacesJson := .ok ⟨[dC6]⟩
    dhcp6Lease := .ok ⟨[pfxC6]⟩
    parseAddr := fun str =>
      if str = "192.168.1.1/24" then .ok aC6
      else .error (Err.parseError "ParseAddr")
    parsePfxAddr := fun pfx => .ok ⟨pfx.ip, (maskSize pfx.mask).1⟩ }

/-- Initial state for the interface half of the C6 witness. -/
def stC6 : NetState := ⟨[lkC6], [], [], [], []⟩

/-- State after the first Interface Applier run of the C6 witness. -/
def stC6f : NetState :=
  ⟨[⟨1, "uplink0", "cc:cc:cc:cc:cc:cc", true⟩], [(1, aC6)], [], [],
   [Op.linkSetName 1 "uplink0", Op.linkSetUp 1, Op.addrReplace 1 aC6]⟩

/-- Initial state for the DHCPv6 half of the C6 witness. -/
def tC6 : NetState := ⟨[⟨2, "uplink0", "dd:dd:dd:dd:dd:dd", true⟩], [], [], [], []⟩

/-- State after the first DHCPv6 run of the C6 witness. -/
def tC6f : NetState :=
  ⟨[⟨2, "uplink0", "dd:dd:dd:dd:dd:dd", true⟩], [(2, a6C6)], [], [],
   [Op.addrAdd 2 a6C6]⟩

/-- Witness for C6. -/
theorem C6_witness :
    (∃ s2, applyInterfaces envC6 stC6f = (none, s2) ∧
      s2.addrs = stC6f.addrs ∧ s2.links = stC6f.links) ∧
    (∃ e, (applyDhcp6 envC6 "uplink0" tC6f).1 = some e) :=
  C6_idempotence_asymmetry envC6 "uplink0" stC6 stC6f tC6 tC6f ⟨[pfxC6]⟩
    (by decide) (by decide) rfl (by decide) (by decide)

end Netconfig
